import Mathlib

/-!
Verification development for the retire-on-btc probabilistic projection engine.

The Python source (simulation.py, main.py, config.py) computes with IEEE
float32/float64; this development embeds the same algorithms over exact
rationals (`ℚ`), so statements that the spec phrases as "equal within
floating-point tolerance" become exact equalities/inequalities here.
Random draws made through NumPy's PCG64 generator are modelled by passing
the drawn standard-normal / uniform variates (or, for the seeded optimizer
generator, the whole generated matrix) as explicit function parameters:
a seeded generator is a deterministic function of its arguments, and
quantifying over all possible draw values covers every seed.
-/

/-- Clamp floor `1e-6` used in the withdrawal gross-up denominator. -/
def epsClamp : ℚ := 1 / 1000000

/-- Gross-up factor `1.0 / max(1e-6, 1.0 - (tax_rate / 100.0))` applied to
retirement spending in both simulators (simulation.py lines 173 and 229). -/
def grossQ (tax_rate : ℚ) : ℚ := 1 / max epsClamp (1 - tax_rate / 100)

/-- Number of `true` entries of a boolean list: the numerator of
`np.mean(alive)` / `np.mean(not_run_out)` over a boolean mask. -/
def countTrue : List Bool → ℕ
  | [] => 0
  | b :: bs => (if b then 1 else 0) + countTrue bs

/-- Insert a rational into an ascending sorted list (helper for `sortQ`). -/
def insertQ (x : ℚ) : List ℚ → List ℚ
  | [] => [x]
  | y :: ys => if x ≤ y then x :: y :: ys else y :: insertQ x ys

/-- Ascending insertion sort: the sorting step inside `np.percentile`. -/
def sortQ : List ℚ → List ℚ
  | [] => []
  | x :: xs => insertQ x (sortQ xs)

/-- Exact-arithmetic `np.percentile(values, p)` with NumPy's default linear
interpolation: rank `r = p/100 * (n-1)`, then interpolate between the two
adjacent order statistics. -/
def npPercentile (l : List ℚ) (p : ℚ) : ℚ :=
  let s := sortQ l
  let n := s.length
  let r := p * ((n : ℚ) - 1) / 100
  let k : ℤ := ⌊r⌋
  let frac := r - (k : ℚ)
  let a := s.getD k.toNat 0
  let b := s.getD (k.toNat + 1) a
  a + frac * (b - a)

/-- One simulated path of the streaming simulator `simulate_percentiles_and_prob`
(simulation.py lines 230-244): state is `(holdings, price, alive)`; in year `t`
holdings are updated with the start-of-year price, then the price grows by that
year's factor, and the USD value `h * price` is recorded.  Returns the per-year
USD values of this path and the final `alive` flag. -/
def streamGo (yur : ℤ) (mi ms gr : ℚ) : ℕ → ℚ → ℚ → Bool → List ℚ → List ℚ × Bool
  | _, _, _, alive, [] => ([], alive)
  | t, h, price, alive, f :: fs =>
    let h' := if (t : ℤ) < yur then h + mi * 12 / price else max (h - ms * 12 * gr / price) 0
    let alive' := if (t : ℤ) < yur then alive else alive && decide (0 < h')
    let price' := price * f
    let rest := streamGo yur mi ms gr (t + 1) h' price' alive' fs
    (h' * price' :: rest.1, rest.2)

/-- One simulated path of the full-matrix simulator `simulate_holdings_paths`
(simulation.py lines 160-187): `prices[:, t]` is the cumulative product of the
factors up to and including year `t`, and year `t`'s contribution/withdrawal is
priced at `prices[:, t]`.  Returns the per-year `(holdings, price)` pairs. -/
def pathGo (yur : ℤ) (mi ms gr : ℚ) : ℕ → ℚ → ℚ → List ℚ → List (ℚ × ℚ)
  | _, _, _, [] => []
  | t, h, price, f :: fs =>
    let price' := price * f
    let h' := if (t : ℤ) < yur then h + mi * 12 / price' else max (h - ms * 12 * gr / price') 0
    (h', price') :: pathGo yur mi ms gr (t + 1) h' price' fs

/-- The `np.all(after_retirement > 0, axis=1)` test of simulation.py line 191:
every recorded holdings value from year `yur` on is strictly positive. -/
def notRunOut (yur : ℤ) : ℕ → List (ℚ × ℚ) → Bool
  | _, [] => true
  | t, x :: xs => (if (t : ℤ) < yur then true else decide (0 < x.1)) && notRunOut yur (t + 1) xs

/-- Column `t` of a row-major matrix (used to take per-year cross-simulation
slices of the value matrix, as `values_t` does in the source). -/
def colD (m : List (List ℚ)) (t : ℕ) : List ℚ := m.map fun r => r.getD t 0

/-- Embedding of `simulate_holdings_paths` (simulation.py lines 124-197) over
exact rationals.  The returned pair is `(values, prob_not_run_out)`: `values`
is the USD value matrix `holdings * prices` and the probability is the mean of
the per-path `notRunOut` flags, or `1` when no retirement year lies inside the
horizon (`after_retirement.size == 0`).  The embedding assumes
`0 ≤ retirement_age - current_age` (guaranteed by the validated scenarios that
reach the simulator; Python negative-slice semantics are not reproduced). -/
def simulate_holdings_paths (rf : List (List ℚ)) (current_age retirement_age : ℤ)
    (current_holdings monthly_investment monthly_spending tax_rate
     current_bitcoin_price : ℚ) : List (List ℚ) × ℚ :=
  let yur := retirement_age - current_age
  let gr := grossQ tax_rate
  let years : ℕ := (rf.headD []).length
  let sims := rf.map
    (pathGo yur monthly_investment monthly_spending gr 0 current_holdings current_bitcoin_price)
  let values := sims.map (List.map fun x => x.1 * x.2)
  let prob : ℚ :=
    if 0 < rf.length ∧ yur < (years : ℤ) then
      (countTrue (sims.map (notRunOut yur 0)) : ℚ) / (rf.length : ℚ)
    else 1
  (values, prob)

/-- Embedding of the streaming simulator `simulate_percentiles_and_prob`
(simulation.py lines 200-247) over exact rationals.  Returns the percentile
series (one list of per-year values for each requested percentile level, in
order) and the success probability `mean(alive)` (or `1` when
`years_until_retirement ≥ years`). -/
def simulate_percentiles_and_prob (rf : List (List ℚ)) (current_age retirement_age : ℤ)
    (current_holdings monthly_investment monthly_spending current_bitcoin_price
     tax_rate : ℚ) (percentiles : List ℚ) : List (List ℚ) × ℚ :=
  let yur := retirement_age - current_age
  let gr := grossQ tax_rate
  let years : ℕ := (rf.headD []).length
  let runs := rf.map
    (streamGo yur monthly_investment monthly_spending gr 0 current_holdings
      current_bitcoin_price true)
  let valuesM := runs.map Prod.fst
  let series := percentiles.map fun p =>
    (List.range years).map fun t => npPercentile (colD valuesM t) p
  let prob : ℚ :=
    if yur < (years : ℤ) then (countTrue (runs.map Prod.snd) : ℚ) / (rf.length : ℚ) else 1
  (series, prob)

/-- Phase parameters `HALVING_PHASE_PARAMS` from config.py: four 12-month
phases, each a pair (annual mean arithmetic return, annual log-volatility). -/
def HALVING_PHASE_PARAMS : Fin 4 → ℚ × ℚ
  | 0 => (80 / 100, 85 / 100)
  | 1 => (35 / 100, 60 / 100)
  | 2 => (-(20 / 100), 70 / 100)
  | 3 => (12 / 100, 50 / 100)

/-- Decay-scale constant `PRICE_DECAY_YEARS_SCALE` from config.py. -/
def PRICE_DECAY_YEARS_SCALE : ℚ := 42

/-- Phase index of simulated year `y` (`_compute_halving_phases`,
simulation.py lines 52-59): mid-year month offset modulo the 48-month cycle,
integer-divided by 12.  `msa` is `months_since_anchor`, the whole-month offset
between today and the April 2024 anchor, kept as an explicit parameter. -/
def phaseIdx (msa : ℤ) (y : ℕ) : Fin 4 :=
  ⟨(((msa + (y : ℤ) * 12 + 6) % 48) / 12).toNat, by omega⟩

/-- Per-phase log-return `np.log1p(phase_mu_arith)` (simulation.py line 80). -/
noncomputable def phase_mu_log_raw (p : Fin 4) : ℝ :=
  Real.log (1 + ((HALVING_PHASE_PARAMS p).1 : ℝ))

/-- Zero-centered phase tilt (simulation.py line 81): the raw per-phase
log-return minus the cross-phase average. -/
noncomputable def phase_mu_log_tilt (p : Fin 4) : ℝ :=
  phase_mu_log_raw p -
    (phase_mu_log_raw 0 + phase_mu_log_raw 1 + phase_mu_log_raw 2 + phase_mu_log_raw 3) / 4

/-- Baseline drift `mu0 = log1p(growth_rate)` (simulation.py line 88), with the
growth rate given in percent. -/
noncomputable def mu0 (g_pct : ℝ) : ℝ := Real.log (1 + g_pct / 100)

/-- Per-year log-drift `mu_log_year[y] = mu0 * decay[y] + tilt[phase[y]]`
(simulation.py lines 89-91). -/
noncomputable def mu_log_year (g_pct : ℝ) (msa : ℤ) (y : ℕ) : ℝ :=
  mu0 g_pct * (1 / (1 + (y : ℝ) / (PRICE_DECAY_YEARS_SCALE : ℝ))) +
    phase_mu_log_tilt (phaseIdx msa y)

/-- Per-year log-volatility (simulation.py line 92). -/
def sigma_log_year (msa : ℤ) (y : ℕ) : ℚ := (HALVING_PHASE_PARAMS (phaseIdx msa y)).2

/-- Embedding of `compute_mu_log_schedule` (simulation.py lines 62-93): the
pair of per-year drift and volatility schedules. -/
noncomputable def compute_mu_log_schedule (years : ℕ) (g_pct : ℝ) (msa : ℤ) :
    List ℝ × List ℚ :=
  ((List.range years).map (mu_log_year g_pct msa), (List.range years).map (sigma_log_year msa))

/-- One cell of `generate_halving_returns` (simulation.py lines 110-121): the
normal draw `z ~ N(mu, sigma)` is written `mu + sigma * draw` with `draw` a
standard-normal variate supplied by the seeded PCG64 stream, and the growth
factor is `exp(z)`. -/
noncomputable def halvingFactor (g_pct : ℝ) (msa : ℤ) (y : ℕ) (draw : ℝ) : ℝ :=
  Real.exp (mu_log_year g_pct msa y + (sigma_log_year msa y : ℝ) * draw)

/-- Embedding of `generate_halving_returns` (simulation.py lines 96-121): the
`(n_sims × years)` matrix of growth factors, with the per-cell standard-normal
draws passed explicitly. -/
noncomputable def generate_halving_returns (years n_sims : ℕ) (draws : ℕ → ℕ → ℝ)
    (g_pct : ℝ) (msa : ℤ) : List (List ℝ) :=
  (List.range n_sims).map fun i => (List.range years).map fun y =>
    halvingFactor g_pct msa y (draws i y)

/-- One cell of `simulate_regime_shift_returns` before adding 1 (simulation.py
lines 37-48): a 50/50 regime choice (uniform draw `u < 0.5` selects the bull
normal `N(0.3, 0.2)`, otherwise the bear normal `N(-0.1, 0.25)`), plus the
optional constant shift aligning the 10% baseline mean to the target. -/
def regimeReturn (u gbull gbear : ℚ) (target : Option ℚ) : ℚ :=
  let bull := 3 / 10 + 2 / 10 * gbull
  let bear := -(1 / 10) + 25 / 100 * gbear
  let r := if u < 1 / 2 then bull else bear
  match target with
  | some tp => r + (tp / 100 - (1 / 2 * (3 / 10) + 1 / 2 * (-(1 / 10))))
  | none => r

/-- Embedding of `simulate_regime_shift_returns` (simulation.py lines 14-50):
growth factors `1 + returns`, with the per-cell uniform and standard-normal
draws passed explicitly. -/
def simulate_regime_shift_returns (years n_sims : ℕ) (u gbull gbear : ℕ → ℕ → ℚ)
    (target : Option ℚ) : List (List ℚ) :=
  (List.range n_sims).map fun i => (List.range years).map fun y =>
    1 + regimeReturn (u i y) (gbull i y) (gbear i y) target

/-- Spending floor `SPENDING_MIN` from config.py. -/
def SPENDING_MIN : ℚ := 1

/-- UI step `INVESTMENT_STEP` from config.py. -/
def INVESTMENT_STEP : ℚ := 50

/-- UI step `SPENDING_STEP` from config.py. -/
def SPENDING_STEP : ℚ := 100

/-- Optimizer target probability `OPT_TARGET_PROB` from config.py. -/
def OPT_TARGET_PROB : ℚ := 80 / 100

/-- Optimizer upper band hint `OPT_UPPER_TARGET_HINT` from config.py. -/
def OPT_UPPER_TARGET_HINT : ℚ := 90 / 100

/-- Optimizer minimum simulation count `OPT_SIMS_MIN` from config.py. -/
def OPT_SIMS_MIN : ℕ := 5000

/-- Fixed optimizer seed `OPT_SEED` from config.py. -/
def OPT_SEED : ℕ := 12345

/-- Cap `OPT_MAX_TOTAL_INVESTMENT` from config.py. -/
def OPT_MAX_TOTAL_INVESTMENT : ℚ := 500000

/-- Cap `OPT_MAX_EXPENSE_CUT_PCT` from config.py. -/
def OPT_MAX_EXPENSE_CUT_PCT : ℚ := 50 / 100

/-- Cap `OPT_MAX_RETIRE_DELAY_YEARS` from config.py. -/
def OPT_MAX_RETIRE_DELAY_YEARS : ℤ := 10

/-- Dollar granularity `OPT_GRANULARITY_DOLLARS` from config.py. -/
def OPT_GRANULARITY_DOLLARS : ℚ := 10

/-- Year granularity `OPT_GRANULARITY_YEARS` from config.py. -/
def OPT_GRANULARITY_YEARS : ℚ := 1

/-- Alternate recommendation count `OPT_ALTERNATE_COUNT` from config.py. -/
def OPT_ALTERNATE_COUNT : ℕ := 1

/-- Lever weight `OPT_WEIGHT_INVEST` from config.py. -/
def OPT_WEIGHT_INVEST : ℚ := 1

/-- Lever weight `OPT_WEIGHT_EXPENSE` from config.py. -/
def OPT_WEIGHT_EXPENSE : ℚ := 1

/-- Lever weight `OPT_WEIGHT_RETIRE_YEAR` from config.py. -/
def OPT_WEIGHT_RETIRE_YEAR : ℚ := 75 / 100

/-- Cap `OPT_MAX_EXPENSE_INCREASE_PCT` from config.py. -/
def OPT_MAX_EXPENSE_INCREASE_PCT : ℚ := 25 / 100

/-- Upper end of `AGE_RANGE` from config.py. -/
def AGE_MAX : ℤ := 120

/-- Loop fuel used by the embedded optimizer loops.  The Python loops have no
iteration bound; the bound chosen here is far beyond what any loop in the
recommendation routine can perform with the configured caps and granularities
(the caps are at most 500000 with doubling steps). -/
def OPT_FUEL : ℕ := 200

/-- Python's builtin `round` on exact rationals: round-half-to-even. -/
def pyRound (x : ℚ) : ℤ :=
  let f := ⌊x⌋
  let frac := x - (f : ℚ)
  if frac < 1 / 2 then f
  else if 1 / 2 < frac then f + 1
  else if f % 2 = 0 then f else f + 1

/-- `_round_dollars` (main.py lines 59-63) at its default step of 10. -/
def _round_dollars (x : ℚ) : ℤ := 10 * pyRound (x / 10)

/-- Helper for thousands grouping: chunk a reversed digit list in threes. -/
def chunk3 : List Char → List (List Char)
  | [] => []
  | a :: rest => (a :: rest.take 2) :: chunk3 (rest.drop 2)
termination_by l => l.length
decreasing_by simp [List.length_drop]; omega

/-- Python's `f"{n:,}"` integer formatting with thousands separators. -/
def commaFmtInt (n : ℤ) : String :=
  let ds := (toString n.natAbs).toList
  let chunks := (chunk3 ds.reverse).map List.reverse
  let body := String.intercalate "," (chunks.reverse.map fun c => String.mk c)
  if n < 0 then "-" ++ body else body

/-- `_fmt_money` (main.py lines 66-68): escaped dollar sign plus grouped amount. -/
def _fmt_money (x : ℚ) : String := "\\$" ++ commaFmtInt (_round_dollars x)

/-- Python's `math.isfinite` restricted to exact rationals, which are always
finite (float infinities and NaNs are not modelled). -/
def isfinite (_ : ℚ) : Bool := true

/-- Expansion loop of `bracket_and_bisect` (main.py lines 139-143), made total
with explicit fuel (the Python loop can diverge for degenerate parameters such
as a non-positive granularity).  State is the current upper probe and its
probability. -/
def bbExpand (getter : ℚ → ℚ) (target upper_cap granularity : ℚ) :
    ℕ → ℚ → ℚ → ℚ × ℚ
  | 0, upper, p_upper => (upper, p_upper)
  | fuel + 1, upper, p_upper =>
    if p_upper < target ∧ upper < upper_cap then
      let u := min (if 0 < upper then upper * 2 else granularity * 2) upper_cap
      bbExpand getter target upper_cap granularity fuel u (getter u)
    else (upper, p_upper)

/-- Bisection loop of `bracket_and_bisect` (main.py lines 147-158), fueled.
State: bracket `(lo, hi)` and the best succeeding probe with its probability. -/
def bbBisect (getter : ℚ → ℚ) (target granularity : ℚ) :
    ℕ → ℚ → ℚ → ℚ → ℚ → ℚ × ℚ
  | 0, _, _, best, best_p => (best, best_p)
  | fuel + 1, lo, hi, best, best_p =>
    if granularity < hi - lo then
      let mid := (pyRound ((lo + hi) / 2 / granularity) : ℚ) * granularity
      let pm := getter mid
      if target ≤ pm then bbBisect getter target granularity fuel lo mid mid pm
      else bbBisect getter target granularity fuel mid hi best best_p
    else (best, best_p)

/-- Embedding of `bracket_and_bisect` (main.py lines 124-159): returns
`(found, best_delta, prob)`. -/
def bracket_and_bisect (fuel : ℕ) (getter : ℚ → ℚ)
    (lower upper_init upper_cap granularity target : ℚ) : Bool × ℚ × ℚ :=
  let p0 := getter lower
  if target ≤ p0 then (true, lower, p0)
  else
    let u0 := max upper_init (lower + granularity)
    let ep := bbExpand getter target upper_cap granularity fuel u0 (getter u0)
    if ep.2 < target then (false, ep.1, ep.2)
    else
      let bb := bbBisect getter target granularity fuel lower ep.1 ep.1 ep.2
      (true, max granularity bb.1, bb.2)

/-- Expansion loop of `ease_bracket_and_bisect` (main.py lines 248-252),
fueled.  State: `(lo, hi, p_hi)`. -/
def ebExpand (getter : ℚ → ℚ) (target upper_cap : ℚ) :
    ℕ → ℚ → ℚ → ℚ → ℚ × ℚ × ℚ
  | 0, lo, hi, p_hi => (lo, hi, p_hi)
  | fuel + 1, lo, hi, p_hi =>
    if target ≤ p_hi ∧ hi < upper_cap then
      let h := min (hi * 2) upper_cap
      ebExpand getter target upper_cap fuel hi h (getter h)
    else (lo, hi, p_hi)

/-- Bisection loop of `ease_bracket_and_bisect` (main.py lines 257-267),
fueled.  State: `(left, right, best)`, bisecting to the boundary from above. -/
def ebBisect (getter : ℚ → ℚ) (target granularity : ℚ) :
    ℕ → ℚ → ℚ → ℚ → ℚ
  | 0, _, _, best => best
  | fuel + 1, left, right, best =>
    if granularity < right - left then
      let mid := (pyRound ((left + right) / 2 / granularity) : ℚ) * granularity
      let pm := getter mid
      if target ≤ pm then ebBisect getter target granularity fuel mid right mid
      else ebBisect getter target granularity fuel left mid best
    else best

/-- Embedding of `ease_bracket_and_bisect` (main.py lines 243-268): the largest
easing magnitude that keeps the probability at or above target. -/
def ease_bracket_and_bisect (fuel : ℕ) (getter : ℚ → ℚ)
    (upper_init upper_cap granularity target : ℚ) : ℚ :=
  let hi := max upper_init granularity
  let e := ebExpand getter target upper_cap fuel 0 hi (getter hi)
  if e.2.2 < target ∧ e.1 = 0 then 0
  else max 0 (ebBisect getter target granularity fuel e.1 e.2.1 e.1)

/-- Typed view of the `inputs` dictionary that `render_calculator` builds and
passes to `_recommend_adjustments` (main.py lines 634-645): integer ages and
rational financial fields. -/
structure Inputs where
  current_age : ℤ
  retirement_age : ℤ
  life_expectancy : ℤ
  monthly_spending : ℚ
  monthly_investment : ℚ
  current_holdings : ℚ
  tax_rate : ℚ
  bitcoin_growth_rate : ℚ

/-- The clamped scenario built inside `eval_prob` (main.py lines 102-109):
retirement age capped at `life_expectancy - 1`, investment floored at `0`,
spending floored at `SPENDING_MIN`.  Returned as
`(retirement_age, monthly_investment, monthly_spending)`. -/
def evalProbScenario (inputs : Inputs) (monthly_investment_delta : ℚ)
    (retirement_age_delta_years : ℤ) (monthly_spending_delta : ℚ) : ℤ × ℚ × ℚ :=
  (min (inputs.retirement_age + retirement_age_delta_years) (inputs.life_expectancy - 1),
   max 0 (inputs.monthly_investment + monthly_investment_delta),
   max SPENDING_MIN (inputs.monthly_spending - monthly_spending_delta))

/-- `eval_prob` (main.py lines 97-121): run the streaming simulator on the
fixed common-random-numbers matrix `opt_returns` with the clamped scenario and
return the success probability. -/
def eval_prob (opt_returns : List (List ℚ)) (inputs : Inputs) (price : ℚ)
    (di : ℚ) (dy : ℤ) (ds : ℚ) : ℚ :=
  let s := evalProbScenario inputs di dy ds
  (simulate_percentiles_and_prob opt_returns inputs.current_age s.1
    inputs.current_holdings s.2.1 s.2.2 price inputs.tax_rate [10, 25, 50]).2

/-- Stable insertion of an option by its normalized cost (second component),
matching Python's stable `list.sort(key=lambda x: x[1])`. -/
def insertByKey (x : String × ℚ × String) :
    List (String × ℚ × String) → List (String × ℚ × String)
  | [] => [x]
  | y :: ys => if x.2.1 ≤ y.2.1 then x :: y :: ys else y :: insertByKey x ys

/-- Stable sort by normalized cost. -/
def sortByKey : List (String × ℚ × String) → List (String × ℚ × String)
  | [] => []
  | x :: xs => insertByKey x (sortByKey xs)

/-- Best-combination update of the combo loop (main.py lines 343-344 and
362-363): keep the candidate with the smaller normalized cost, starting from
`float("inf")` (modelled as `none`). -/
def comboUpd (best : Option (ℚ × String)) (norm : ℚ) (text : String) :
    Option (ℚ × String) :=
  match best with
  | none => some (norm, text)
  | some (bn, bt) => if norm < bn then some (norm, text) else some (bn, bt)

/-- Embedding of the body of `_recommend_adjustments` (main.py lines 85-394),
i.e. everything inside its `try:` block.  `gen` models the deterministic seeded
generator `generate_halving_returns` (its PCG64 draws are a pure function of
`(years, n_sims, seed, target)`), and `entropy` models the process-global
unseeded random source that accurate-mode callers use elsewhere; the body never
reads it because the optimizer always passes the fixed `OPT_SEED`.  The only
failing step under well-typed inputs is the NumPy broadcast with a negative
`years`, which raises and is modelled as `Except.error ()`; every other path
returns one of the routine's message strings.  `baseline_prob` is accepted and
unused, exactly as in the source. -/
def _recommend_body (gen : ℕ → ℕ → ℕ → ℚ → List (List ℚ)) (entropy : ℕ → ℚ)
    (inputs : Inputs) (current_bitcoin_price baseline_prob : ℚ)
    (n_sims_used : ℕ) (target : ℚ) : Except Unit String :=
  let years : ℤ := inputs.life_expectancy - inputs.current_age + 1
  if years < 0 then Except.error () else
  let n_sims_opt : ℕ := max n_sims_used OPT_SIMS_MIN
  let opt_returns := gen years.toNat n_sims_opt OPT_SEED inputs.bitcoin_growth_rate
  let ev := fun (di : ℚ) (dy : ℤ) (ds : ℚ) =>
    eval_prob opt_returns inputs current_bitcoin_price di dy ds
  let current_prob_opt := ev 0 0 0
  if OPT_TARGET_PROB ≤ current_prob_opt ∧ current_prob_opt ≤ OPT_UPPER_TARGET_HINT then
    Except.ok ("Youâ€™re already in the 80â€“90% target range, so no changes are needed. " ++
      "If youâ€™d like a bit more cushion, a small increase in contributions or a modest expense trim can nudge the odds higher.")
  else
  let base_invest := inputs.monthly_investment
  let base_spend := inputs.monthly_spending
  let base_retire := inputs.retirement_age
  let current_age := inputs.current_age
  let max_retire_years : ℤ := max 0 (min OPT_MAX_RETIRE_DELAY_YEARS
    (min (AGE_MAX - 1 - base_retire) (inputs.life_expectancy - 1 - base_retire)))
  let invest_cap_total := max OPT_MAX_TOTAL_INVESTMENT base_invest
  let invest_delta_cap := max 0 (invest_cap_total - base_invest)
  let bbi := bracket_and_bisect OPT_FUEL (fun d => ev d 0 0) 0
    (max 50 INVESTMENT_STEP) invest_delta_cap OPT_GRANULARITY_DOLLARS target
  let found_i := bbi.1
  let best_i := bbi.2.1
  let bbr := bracket_and_bisect OPT_FUEL (fun x => ev 0 (pyRound x) 0) 0 1
    ((max_retire_years : ℚ)) OPT_GRANULARITY_YEARS target
  let found_r := bbr.1
  let best_r : ℤ := pyRound bbr.2.1
  let spend_delta_cap := max 0 (min (base_spend * OPT_MAX_EXPENSE_CUT_PCT)
    (base_spend - SPENDING_MIN))
  let bbs := bracket_and_bisect OPT_FUEL (fun d => ev 0 0 d) 0
    (max 50 SPENDING_STEP) spend_delta_cap OPT_GRANULARITY_DOLLARS target
  let found_s := bbs.1
  let best_s := bbs.2.1
  let options : List (String × ℚ × String) :=
    (if found_i && isfinite best_i && decide (0 < best_i) then
      [("invest", OPT_WEIGHT_INVEST * (best_i / max base_invest 1),
        "increasing your monthly investment by about " ++ _fmt_money best_i)]
     else []) ++
    (if found_r && decide (0 < best_r) then
      [("retire", OPT_WEIGHT_RETIRE_YEAR *
          ((best_r : ℚ) / ((max 1 (inputs.retirement_age - current_age) : ℤ) : ℚ)),
        "delaying retirement by roughly " ++ toString best_r ++ " " ++
          (if best_r = 1 then "year" else "years"))]
     else []) ++
    (if found_s && isfinite best_s && decide (0 < best_s) then
      [("spend", OPT_WEIGHT_EXPENSE * (best_s / max base_spend 1),
        "cutting monthly expenses by about " ++ _fmt_money best_s)]
     else [])
  if OPT_UPPER_TARGET_HINT < current_prob_opt then
    let invest_reduce_cap := base_invest
    let max_ease_invest := ease_bracket_and_bisect OPT_FUEL (fun m => ev (-m) 0 0)
      (max 50 INVESTMENT_STEP) invest_reduce_cap OPT_GRANULARITY_DOLLARS target
    let max_advance_years : ℤ := max 0 (base_retire - (current_age + 1))
    let max_ease_retire_years : ℤ :=
      if 0 < max_advance_years then
        pyRound (ease_bracket_and_bisect OPT_FUEL (fun m => ev 0 (-(pyRound m)) 0) 1
          ((max_advance_years : ℚ)) OPT_GRANULARITY_YEARS target)
      else 0
    let spend_increase_cap := base_spend * OPT_MAX_EXPENSE_INCREASE_PCT
    let max_ease_spend := ease_bracket_and_bisect OPT_FUEL (fun m => ev 0 0 (-m))
      (max 50 SPENDING_STEP) spend_increase_cap OPT_GRANULARITY_DOLLARS target
    let phrases : List String :=
      (if 0 < max_ease_invest then
        ["reduce monthly investment by about " ++ _fmt_money max_ease_invest] else []) ++
      (if 0 < max_ease_retire_years then
        ["bring retirement forward by around " ++ toString max_ease_retire_years ++ " " ++
          (if max_ease_retire_years = 1 then "year" else "years")] else []) ++
      (if 0 < max_ease_spend then
        ["increase monthly expenses by about " ++ _fmt_money max_ease_spend] else [])
    match phrases with
    | [] => Except.ok
        "Youâ€™re comfortably above the 80â€“90% target. You could scale back slightly and still maintain at least an 80% chance of success."
    | [a] => Except.ok ("Youâ€™re comfortably above the 80â€“90% target. You could " ++ a ++
        " and still maintain at least an 80% chance of success.")
    | [a, b] => Except.ok ("Youâ€™re comfortably above the 80â€“90% target. You could " ++
        a ++ " or " ++ b ++ " and still maintain at least an 80% chance of success.")
    | a :: b :: c :: _ => Except.ok ("Youâ€™re comfortably above the 80â€“90% target. You could " ++
        a ++ ", " ++ b ++ ", or " ++ c ++ " and still maintain at least an 80% chance of success.")
  else
  if current_prob_opt < target ∧ options = [] then
    let dys := (List.range max_retire_years.toNat).map fun k => (k : ℤ) + 1
    let best_combo := dys.foldl (fun best dy =>
      let ci := bracket_and_bisect OPT_FUEL (fun d => ev d dy 0) 0
        (max 50 INVESTMENT_STEP) invest_delta_cap OPT_GRANULARITY_DOLLARS target
      let best1 :=
        if ci.1 && decide (0 < ci.2.1) then
          comboUpd best
            (ci.2.1 / max base_invest 1 +
              (dy : ℚ) / ((max 1 (inputs.retirement_age - current_age) : ℤ) : ℚ))
            ("a blend of delaying retirement by about " ++ toString dy ++ " " ++
              (if dy = 1 then "year" else "years") ++
              " and increasing monthly investment by roughly " ++ _fmt_money ci.2.1)
        else best
      let cs := bracket_and_bisect OPT_FUEL (fun d => ev 0 dy d) 0
        (max 50 SPENDING_STEP) spend_delta_cap OPT_GRANULARITY_DOLLARS target
      if cs.1 && decide (0 < cs.2.1) then
        comboUpd best1
          (cs.2.1 / max base_spend 1 +
            (dy : ℚ) / ((max 1 (inputs.retirement_age - current_age) : ℤ) : ℚ))
          ("a blend of delaying retirement by about " ++ toString dy ++ " " ++
            (if dy = 1 then "year" else "years") ++
            " and cutting monthly expenses by roughly " ++ _fmt_money cs.2.1)
      else best1) none
    match best_combo with
    | some bc => Except.ok
        ("To reach at least an 80% chance of success, consider " ++ bc.2 ++ ".")
    | none => Except.ok
        ("Reaching an 80% success probability within reasonable bounds wasn\x27t feasible in these simulations. " ++
          "A more substantial combination of delaying retirement, increasing contributions, and lowering expenses may be required.")
  else
  match sortByKey options with
  | (_, _, primary) :: rest =>
    match rest.take OPT_ALTERNATE_COUNT with
    | (_, _, alt) :: _ => Except.ok
        ("To reach at least an 80% chance of success, " ++ primary ++
          " achieves the target. " ++ "If you prefer a different path, " ++ alt ++
          " also works.")
    | [] => Except.ok
        ("To reach at least an 80% chance of success, " ++ primary ++
          " achieves the target.")
  | [] => Except.ok
      "To improve your odds toward the 80% target, modest adjustments across contributions, retirement timing, or spending will help."

/-- Embedding of `_recommend_adjustments` (main.py lines 71-398): the body runs
inside `try:`; any exception is converted to the empty string (no
recommendation). -/
def _recommend_adjustments (gen : ℕ → ℕ → ℕ → ℚ → List (List ℚ)) (entropy : ℕ → ℚ)
    (inputs : Inputs) (current_bitcoin_price baseline_prob : ℚ)
    (n_sims_used : ℕ) (target : ℚ) : String :=
  match _recommend_body gen entropy inputs current_bitcoin_price baseline_prob
      n_sims_used target with
  | Except.ok s => s
  | Except.error _ => ""

/-- Claim C1 counterexample: the streaming and full-matrix simulators do not
agree.  Scenario `current_age = 30 < retirement_age = 31 < life_expectancy`,
`current_holdings = 1`, `monthly_investment = 1`, `monthly_spending = 0`,
`tax_rate = 0`, price `1`, return factors `[[2, 2]]`.  The streaming simulator
prices year 0's contribution at the start-of-year price (value 26) while the
full-matrix simulator prices it at the price that already includes year 0's
factor (value 14), so the percentile series differ. -/
theorem stream_vs_paths_percentile_mismatch :
    (simulate_percentiles_and_prob [[2, 2]] 30 31 1 1 0 1 0 [50]).1 = [[26, 52]] ∧
    ((List.range 2).map fun t =>
      npPercentile (colD (simulate_holdings_paths [[2, 2]] 30 31 1 1 0 0 1).1 t) 50) =
      [14, 28] ∧
    (26 : ℚ) ≠ 14 := by
  refine ⟨?_, ?_, by norm_num⟩ <;>
    norm_num [simulate_percentiles_and_prob, simulate_holdings_paths, streamGo, pathGo,
      colD, npPercentile, sortQ, insertQ, grossQ, epsClamp, List.range_succ]

/-- Claim C2 counterexample to "zero spending gives success probability 1":
with `monthly_spending = 0`, `current_holdings = 0` and `monthly_investment = 0`
(valid inputs), holdings stay at `0`, the strict test `h > 0` fails in every
retirement year, and both simulators return probability `0`, not `1`. -/
theorem zero_spending_zero_holdings_prob_zero :
    (simulate_holdings_paths [[1, 1]] 30 31 0 0 0 0 100).2 = 0 ∧
    (simulate_percentiles_and_prob [[1, 1]] 30 31 0 0 0 100 0 [50]).2 = 0 ∧
    (0 : ℚ) ≠ 1 := by
  refine ⟨?_, ?_, by norm_num⟩ <;>
    norm_num [simulate_percentiles_and_prob, simulate_holdings_paths, streamGo, pathGo,
      notRunOut, countTrue, grossQ, epsClamp]

/-- Claim C3 counterexample to "no reported output value is negative for any finite
return-factor matrix": with the finite matrix `[[-1]]` the cumulative price is
negative, so the reported USD value `holdings * price` and the streamed
percentile are `-1 < 0`. -/
theorem negative_factor_negative_values :
    (simulate_holdings_paths [[-1]] 30 31 1 0 0 0 1).1 = [[-1]] ∧
    (simulate_percentiles_and_prob [[-1]] 30 31 1 0 0 1 0 [50]).1 = [[-1]] ∧
    ((-1 : ℚ) < 0) := by
  refine ⟨?_, ?_, by norm_num⟩ <;>
    norm_num [simulate_percentiles_and_prob, simulate_holdings_paths, streamGo, pathGo,
      colD, npPercentile, sortQ, insertQ, grossQ, epsClamp, List.range_succ]

/-- Helper for claim C1: with zero contribution and zero spending the per-path
streaming state coincides with the full-matrix path: the streamed per-year USD
values are exactly `h * price` of the materialized path, and the final `alive`
flag equals `alive && notRunOut`. -/
theorem streamGo_no_cashflow (yur : ℤ) (gr : ℚ) (fs : List ℚ) :
    ∀ (t : ℕ) (h price : ℚ) (alive : Bool), 0 ≤ h →
      streamGo yur 0 0 gr t h price alive fs =
        ((pathGo yur 0 0 gr t h price fs).map (fun x => x.1 * x.2),
          alive && notRunOut yur t (pathGo yur 0 0 gr t h price fs)) := by
  induction fs with
  | nil => intro t h price alive _; simp [streamGo, pathGo, notRunOut]
  | cons f fs ih =>
    intro t h price alive hh
    have hz : ∀ d : ℚ, max (h - 0 * 12 * gr / d) 0 = h := fun d => by
      rw [zero_mul, zero_mul, zero_div, sub_zero, max_eq_left hh]
    by_cases hc : (t : ℤ) < yur
    · simp only [streamGo, pathGo, notRunOut, if_pos hc, zero_mul, zero_div, add_zero,
        List.map_cons]
      rw [ih (t + 1) h (price * f) alive hh]
      simp [Bool.and_assoc]
    · simp only [streamGo, pathGo, notRunOut, if_neg hc, hz, List.map_cons]
      rw [ih (t + 1) h (price * f) (alive && decide (0 < h)) hh]
      simp [Bool.and_assoc]

/-- Claim C1 (amended): only when monthly investment and monthly spending are
both zero do the streaming simulator and the full-matrix simulator agree: the
success probabilities are equal, and the streamed percentile series equal the
per-year percentiles of the materialized USD value matrix.  (The unrestricted
claim is refuted by `stream_vs_paths_percentile_mismatch`: the two simulators
price cash flows one year apart.) -/
theorem stream_refines_paths_no_cashflow (rf : List (List ℚ)) (ca ra : ℤ) (hca : ca < ra)
    (ch : ℚ) (hch : 0 ≤ ch) (tax p0 : ℚ) (pcts : List ℚ) :
    (simulate_percentiles_and_prob rf ca ra ch 0 0 p0 tax pcts).1 =
      pcts.map (fun p => (List.range (rf.headD []).length).map fun t =>
        npPercentile (colD (simulate_holdings_paths rf ca ra ch 0 0 tax p0).1 t) p) ∧
    (simulate_percentiles_and_prob rf ca ra ch 0 0 p0 tax pcts).2 =
      (simulate_holdings_paths rf ca ra ch 0 0 tax p0).2 := by
  have hyur : 0 < ra - ca := by omega
  have hrow : ∀ row : List ℚ,
      streamGo (ra - ca) 0 0 (grossQ tax) 0 ch p0 true row =
        ((pathGo (ra - ca) 0 0 (grossQ tax) 0 ch p0 row).map (fun x => x.1 * x.2),
          notRunOut (ra - ca) 0 (pathGo (ra - ca) 0 0 (grossQ tax) 0 ch p0 row)) := by
    intro row
    rw [streamGo_no_cashflow _ _ _ _ _ _ _ hch, Bool.true_and]
  have hmap : rf.map (streamGo (ra - ca) 0 0 (grossQ tax) 0 ch p0 true) =
      rf.map (fun row =>
        ((pathGo (ra - ca) 0 0 (grossQ tax) 0 ch p0 row).map (fun x => x.1 * x.2),
          notRunOut (ra - ca) 0 (pathGo (ra - ca) 0 0 (grossQ tax) 0 ch p0 row))) :=
    List.map_congr_left fun row _ => hrow row
  constructor
  · simp only [simulate_percentiles_and_prob, simulate_holdings_paths, hmap, List.map_map,
      Function.comp_def]
  · simp only [simulate_percentiles_and_prob, simulate_holdings_paths, hmap, List.map_map,
      Function.comp_def]
    cases rf with
    | nil =>
      rw [if_neg (by simp; omega), if_neg (by simp)]
    | cons r rs =>
      rw [if_congr (Iff.symm (and_iff_right
        (show 0 < (r :: rs).length by simp))) rfl rfl]

/-- Claim C1 witness: the amended equivalence evaluated at the concrete
no-cash-flow scenario `current_age = 30 < retirement_age = 31`, holdings `1`,
price `1`, factors `[[2, 2]]`. -/
theorem stream_refines_paths_no_cashflow_witness :
    (30 : ℤ) < 31 ∧ (0 : ℚ) ≤ 1 ∧
    ((simulate_percentiles_and_prob [[2, 2]] 30 31 1 0 0 1 0 [50]).1 =
      [(50 : ℚ)].map (fun p => (List.range ([[(2 : ℚ), 2]].headD []).length).map fun t =>
        npPercentile (colD (simulate_holdings_paths [[2, 2]] 30 31 1 0 0 0 1).1 t) p) ∧
      (simulate_percentiles_and_prob [[2, 2]] 30 31 1 0 0 1 0 [50]).2 =
        (simulate_holdings_paths [[2, 2]] 30 31 1 0 0 0 1).2) :=
  ⟨by norm_num, by norm_num,
    stream_refines_paths_no_cashflow [[2, 2]] 30 31 (by norm_num) 1 (by norm_num) 0 1 [50]⟩

/-- Helper: a boolean list that is all-`true` has `countTrue` equal to its length. -/
theorem countTrue_eq_length {l : List Bool} (h : ∀ b ∈ l, b = true) :
    countTrue l = l.length := by
  induction l with
  | nil => rfl
  | cons b bs ih =>
    have hb := h b (List.mem_cons_self b bs)
    simp [countTrue, hb, ih fun x hx => h x (List.mem_cons_of_mem b hx)]
    omega

/-- Helper for claim C2: with zero spending, positive holdings, positive price
and positive factors, the streaming `alive` flag is returned unchanged. -/
theorem streamGo_alive_of_pos (yur : ℤ) (mi gr : ℚ) (hmi : 0 ≤ mi) (fs : List ℚ) :
    ∀ (t : ℕ) (h price : ℚ) (alive : Bool), 0 < h → 0 < price → (∀ f ∈ fs, 0 < f) →
      (streamGo yur mi 0 gr t h price alive fs).2 = alive := by
  induction fs with
  | nil => intros; simp [streamGo]
  | cons f fs ih =>
    intro t h price alive hh hp hfs
    have hf : 0 < f := hfs f (List.mem_cons_self f fs)
    have hrest : ∀ g ∈ fs, 0 < g := fun g hg => hfs g (List.mem_cons_of_mem f hg)
    by_cases hc : (t : ℤ) < yur
    · simp only [streamGo, if_pos hc]
      have hh' : 0 < h + mi * 12 / price :=
        add_pos_of_pos_of_nonneg hh (div_nonneg (by positivity) hp.le)
      exact ih (t + 1) _ _ alive hh' (mul_pos hp hf) hrest
    · have hmax : max (h - 0 * 12 * gr / price) 0 = h := by
        rw [zero_mul, zero_mul, zero_div, sub_zero, max_eq_left hh.le]
      simp only [streamGo, if_neg hc, hmax, decide_eq_true hh, Bool.and_true]
      exact ih (t + 1) h (price * f) alive hh (mul_pos hp hf) hrest

/-- Helper for claim C2: the full-matrix analogue of `streamGo_alive_of_pos`:
with zero spending and positive data the path never runs out. -/
theorem notRunOut_pathGo_of_pos (yur : ℤ) (mi gr : ℚ) (hmi : 0 ≤ mi) (fs : List ℚ) :
    ∀ (t : ℕ) (h price : ℚ), 0 < h → 0 < price → (∀ f ∈ fs, 0 < f) →
      notRunOut yur t (pathGo yur mi 0 gr t h price fs) = true := by
  induction fs with
  | nil => intros; simp [pathGo, notRunOut]
  | cons f fs ih =>
    intro t h price hh hp hfs
    have hf : 0 < f := hfs f (List.mem_cons_self f fs)
    have hrest : ∀ g ∈ fs, 0 < g := fun g hg => hfs g (List.mem_cons_of_mem f hg)
    have hp' : 0 < price * f := mul_pos hp hf
    by_cases hc : (t : ℤ) < yur
    · have hh' : 0 < h + mi * 12 / (price * f) :=
        add_pos_of_pos_of_nonneg hh (div_nonneg (by positivity) hp'.le)
      simp only [pathGo, notRunOut, if_pos hc, Bool.true_and]
      exact ih (t + 1) _ _ hh' hp' hrest
    · have hmax : max (h - 0 * 12 * gr / (price * f)) 0 = h := by
        rw [zero_mul, zero_mul, zero_div, sub_zero, max_eq_left hh.le]
      simp only [pathGo, notRunOut, if_neg hc, hmax, decide_eq_true hh, Bool.true_and]
      exact ih (t + 1) h (price * f) hh hp' hrest

/-- Claim C2 (amended): with `monthly_spending = 0`, any positive-entry return
factor matrix, a positive price, a non-negative monthly investment, and
strictly positive starting holdings, both simulators return success
probability exactly `1`.  (The unrestricted claim, which also allowed
`current_holdings = 0` with no investment, is refuted by
`zero_spending_zero_holdings_prob_zero`: the ruin test is the strict
`holdings > 0`, so an all-zero path counts as ruined.) -/
theorem zero_spending_positive_holdings_prob_one (rf : List (List ℚ)) (ca ra : ℤ)
    (hca : ca < ra) (ch mi tax p0 : ℚ) (hch : 0 < ch) (hmi : 0 ≤ mi) (hp0 : 0 < p0)
    (hpos : ∀ row ∈ rf, ∀ f ∈ row, 0 < f) (pcts : List ℚ) :
    (simulate_holdings_paths rf ca ra ch mi 0 tax p0).2 = 1 ∧
    (simulate_percentiles_and_prob rf ca ra ch mi 0 p0 tax pcts).2 = 1 := by
  have hyur : 0 < ra - ca := by omega
  have hlen : ∀ n : ℕ, 0 < n → ((n : ℚ)) / ((n : ℚ)) = 1 := fun n hn =>
    div_self (Nat.cast_ne_zero.mpr (Nat.not_eq_zero_of_lt hn))
  constructor
  · simp only [simulate_holdings_paths]
    have hall : ∀ b ∈ (rf.map
        (pathGo (ra - ca) mi 0 (grossQ tax) 0 ch p0)).map (notRunOut (ra - ca) 0),
        b = true := by
      intro b hb
      rw [List.mem_map] at hb
      obtain ⟨l, hl, rfl⟩ := hb
      rw [List.mem_map] at hl
      obtain ⟨row, hrowm, rfl⟩ := hl
      exact notRunOut_pathGo_of_pos _ _ _ hmi row 0 ch p0 hch hp0 (hpos row hrowm)
    by_cases hg : 0 < rf.length ∧ ra - ca < ((rf.headD []).length : ℤ)
    · rw [if_pos hg, countTrue_eq_length hall]
      simp only [List.length_map]
      exact hlen rf.length hg.1
    · rw [if_neg hg]
  · simp only [simulate_percentiles_and_prob]
    have hall : ∀ b ∈ (rf.map
        (streamGo (ra - ca) mi 0 (grossQ tax) 0 ch p0 true)).map Prod.snd, b = true := by
      intro b hb
      rw [List.mem_map] at hb
      obtain ⟨l, hl, rfl⟩ := hb
      rw [List.mem_map] at hl
      obtain ⟨row, hrowm, rfl⟩ := hl
      exact streamGo_alive_of_pos _ _ _ hmi row 0 ch p0 true hch hp0 (hpos row hrowm)
    by_cases hg : ra - ca < ((rf.headD []).length : ℤ)
    · rw [if_pos hg, countTrue_eq_length hall]
      simp only [List.length_map]
      cases rf with
      | nil =>
        exfalso
        simp only [List.headD_nil, List.length_nil, Nat.cast_zero] at hg
        omega
      | cons r rs => exact hlen (r :: rs).length (by simp)
    · rw [if_neg hg]

/-- Claim C2 witness: the amended zero-spending guarantee evaluated at the
concrete scenario with holdings `1`, factors `[[1, 1]]`, price `100`. -/
theorem zero_spending_positive_holdings_prob_one_witness :
    ((30 : ℤ) < 31 ∧ (0 : ℚ) < 1 ∧ (0 : ℚ) ≤ 0 ∧ (0 : ℚ) < 100 ∧
      (∀ row ∈ [[(1 : ℚ), 1]], ∀ f ∈ row, 0 < f)) ∧
    (simulate_holdings_paths [[1, 1]] 30 31 1 0 0 0 100).2 = 1 ∧
    (simulate_percentiles_and_prob [[1, 1]] 30 31 1 0 0 100 0 [50]).2 = 1 :=
  ⟨⟨by norm_num, by norm_num, le_refl 0, by norm_num, by decide⟩,
    zero_spending_positive_holdings_prob_one [[1, 1]] 30 31 (by norm_num) 1 0 0 100
      (by norm_num) (le_refl 0) (by norm_num) (by decide) [50]⟩

/-- Helper: `countTrue` never exceeds the list length. -/
theorem countTrue_le_length : ∀ l : List Bool, countTrue l ≤ l.length := by
  intro l
  induction l with
  | nil => simp [countTrue]
  | cons b bs ih =>
    simp only [countTrue, List.length_cons]
    cases b <;> simp <;> omega

/-- Helper: a ratio of natural counts `c / n` with `c ≤ n` lies in `[0, 1]`
(including the degenerate `n = 0` case, where rational division gives `0`). -/
theorem natDiv_unit {c n : ℕ} (h : c ≤ n) :
    0 ≤ (c : ℚ) / (n : ℚ) ∧ (c : ℚ) / (n : ℚ) ≤ 1 := by
  rcases Nat.eq_zero_or_pos n with hn | hn
  · subst hn
    have hc : c = 0 := Nat.le_zero.mp h
    subst hc
    norm_num
  · have hn' : (0 : ℚ) < (n : ℚ) := by exact_mod_cast hn
    constructor
    · exact div_nonneg (by positivity) hn'.le
    · rw [div_le_one hn']
      exact_mod_cast h

/-- Helper: `getD` of a non-negative list with non-negative default is non-negative. -/
theorem getD_nonneg : ∀ (l : List ℚ) (n : ℕ) (d : ℚ), (∀ x ∈ l, 0 ≤ x) → 0 ≤ d →
    0 ≤ l.getD n d := by
  intro l
  induction l with
  | nil => intro n d _ hd; simpa [List.getD]
  | cons x xs ih =>
    intro n d hl hd
    cases n with
    | zero => simpa [List.getD] using hl x (List.mem_cons_self x xs)
    | succ m =>
      simpa [List.getD] using ih m d (fun y hy => hl y (List.mem_cons_of_mem x hy)) hd

/-- Helper: members of `insertQ y l` are `y` or members of `l`. -/
theorem mem_insertQ : ∀ (y : ℚ) (l : List ℚ) (x : ℚ), x ∈ insertQ y l → x = y ∨ x ∈ l := by
  intro y l
  induction l with
  | nil => intro x hx; simpa [insertQ] using hx
  | cons z zs ih =>
    intro x hx
    simp only [insertQ] at hx
    by_cases hc : y ≤ z
    · rw [if_pos hc] at hx
      rcases List.mem_cons.mp hx with h | h
      · exact Or.inl h
      · exact Or.inr h
    · rw [if_neg hc] at hx
      rcases List.mem_cons.mp hx with h | h
      · exact Or.inr (h ▸ List.mem_cons_self z zs)
      · rcases ih x h with h' | h'
        · exact Or.inl h'
        · exact Or.inr (List.mem_cons_of_mem z h')

/-- Helper: sorting introduces no new elements. -/
theorem mem_sortQ : ∀ (l : List ℚ) (x : ℚ), x ∈ sortQ l → x ∈ l := by
  intro l
  induction l with
  | nil => intro x hx; simp [sortQ] at hx
  | cons z zs ih =>
    intro x hx
    rcases mem_insertQ z (sortQ zs) x hx with h | h
    · exact h ▸ List.mem_cons_self z zs
    · exact List.mem_cons_of_mem z (ih x h)

/-- Helper for claim C3: a percentile of a non-negative sample is non-negative
(the interpolation weight `r - ⌊r⌋` lies in `[0, 1)`). -/
theorem npPercentile_nonneg (l : List ℚ) (p : ℚ) (h : ∀ x ∈ l, 0 ≤ x) :
    0 ≤ npPercentile l p := by
  unfold npPercentile
  have hs : ∀ x ∈ sortQ l, 0 ≤ x := fun x hx => h x (mem_sortQ l x hx)
  set r : ℚ := p * (((sortQ l).length : ℚ) - 1) / 100 with hr
  have ha : 0 ≤ (sortQ l).getD (⌊r⌋).toNat 0 := getD_nonneg _ _ _ hs le_rfl
  have hb : 0 ≤ (sortQ l).getD ((⌊r⌋).toNat + 1) ((sortQ l).getD (⌊r⌋).toNat 0) :=
    getD_nonneg _ _ _ hs ha
  have hf0 : 0 ≤ r - (⌊r⌋ : ℚ) := sub_nonneg.mpr (Int.floor_le r)
  have hf1 : r - (⌊r⌋ : ℚ) ≤ 1 := by
    have := Int.lt_floor_add_one r
    linarith
  set a := (sortQ l).getD (⌊r⌋).toNat 0
  set b := (sortQ l).getD ((⌊r⌋).toNat + 1) a
  have : a + (r - (⌊r⌋ : ℚ)) * (b - a) = a * (1 - (r - (⌊r⌋ : ℚ))) + (r - (⌊r⌋ : ℚ)) * b := by
    ring
  rw [this]
  exact add_nonneg (mul_nonneg ha (by linarith)) (mul_nonneg hf0 hb)

/-- Helper for claim C3: all USD values recorded by a streaming path are
non-negative when the scenario data and the factors are non-negative/positive. -/
theorem streamGo_values_nonneg (yur : ℤ) (mi ms gr : ℚ) (hmi : 0 ≤ mi) (fs : List ℚ) :
    ∀ (t : ℕ) (h price : ℚ) (alive : Bool), 0 ≤ h → 0 < price → (∀ f ∈ fs, 0 < f) →
      ∀ v ∈ (streamGo yur mi ms gr t h price alive fs).1, 0 ≤ v := by
  induction fs with
  | nil => intro t h price alive _ _ _ v hv; simp [streamGo] at hv
  | cons f fs ih =>
    intro t h price alive hh hp hfs v hv
    have hf : 0 < f := hfs f (List.mem_cons_self f fs)
    have hrest : ∀ g ∈ fs, 0 < g := fun g hg => hfs g (List.mem_cons_of_mem f hg)
    have hh' : 0 ≤ if (t : ℤ) < yur then h + mi * 12 / price
        else max (h - ms * 12 * gr / price) 0 := by
      by_cases hc : (t : ℤ) < yur
      · rw [if_pos hc]
        exact add_nonneg hh (div_nonneg (by positivity) hp.le)
      · rw [if_neg hc]
        exact le_max_right _ _
    simp only [streamGo, List.mem_cons] at hv
    rcases hv with hv | hv
    · rw [hv]
      exact mul_nonneg hh' (mul_pos hp hf).le
    · exact ih (t + 1) _ _ _ hh' (mul_pos hp hf) hrest v hv

/-- Helper for claim C3: along a full-matrix path, holdings stay non-negative
and prices stay positive. -/
theorem pathGo_state_nonneg (yur : ℤ) (mi ms gr : ℚ) (hmi : 0 ≤ mi) (fs : List ℚ) :
    ∀ (t : ℕ) (h price : ℚ), 0 ≤ h → 0 < price → (∀ f ∈ fs, 0 < f) →
      ∀ x ∈ pathGo yur mi ms gr t h price fs, 0 ≤ x.1 ∧ 0 < x.2 := by
  induction fs with
  | nil => intro t h price _ _ _ x hx; simp [pathGo] at hx
  | cons f fs ih =>
    intro t h price hh hp hfs x hx
    have hf : 0 < f := hfs f (List.mem_cons_self f fs)
    have hrest : ∀ g ∈ fs, 0 < g := fun g hg => hfs g (List.mem_cons_of_mem f hg)
    have hp' : 0 < price * f := mul_pos hp hf
    have hh' : 0 ≤ if (t : ℤ) < yur then h + mi * 12 / (price * f)
        else max (h - ms * 12 * gr / (price * f)) 0 := by
      by_cases hc : (t : ℤ) < yur
      · rw [if_pos hc]
        exact add_nonneg hh (div_nonneg (by positivity) hp'.le)
      · rw [if_neg hc]
        exact le_max_right _ _
    simp only [pathGo, List.mem_cons] at hx
    rcases hx with hx | hx
    · rw [hx]
      exact ⟨hh', hp'⟩
    · exact ih (t + 1) _ _ hh' hp' hrest x hx

/-- Claim C3 (amended): for return-factor matrices with strictly positive
entries (the Return Factor Matrix data model), non-negative holdings and
investment, and a positive price, every reported USD value of
`simulate_holdings_paths`, every streamed percentile of
`simulate_percentiles_and_prob`, is non-negative, and both success
probabilities lie in `[0, 1]`.  (The claim's stronger form quantifying over
arbitrary finite matrices is refuted by `negative_factor_negative_values`:
a negative factor makes the cumulative price, hence the reported USD value,
negative.) -/
theorem reported_outputs_nonneg (rf : List (List ℚ)) (ca ra : ℤ) (ch mi ms tax p0 : ℚ)
    (hch : 0 ≤ ch) (hmi : 0 ≤ mi) (hp0 : 0 < p0)
    (hpos : ∀ row ∈ rf, ∀ f ∈ row, 0 < f) (pcts : List ℚ) :
    (∀ row ∈ (simulate_holdings_paths rf ca ra ch mi ms tax p0).1, ∀ v ∈ row, 0 ≤ v) ∧
    (∀ s ∈ (simulate_percentiles_and_prob rf ca ra ch mi ms p0 tax pcts).1, ∀ v ∈ s, 0 ≤ v) ∧
    (0 ≤ (simulate_holdings_paths rf ca ra ch mi ms tax p0).2 ∧
      (simulate_holdings_paths rf ca ra ch mi ms tax p0).2 ≤ 1) ∧
    (0 ≤ (simulate_percentiles_and_prob rf ca ra ch mi ms p0 tax pcts).2 ∧
      (simulate_percentiles_and_prob rf ca ra ch mi ms p0 tax pcts).2 ≤ 1) := by
  refine ⟨?_, ?_, ?_, ?_⟩
  · intro row hrow v hv
    simp only [simulate_holdings_paths, List.map_map, List.mem_map, Function.comp_def] at hrow
    obtain ⟨r, hr, rfl⟩ := hrow
    rw [List.mem_map] at hv
    obtain ⟨x, hx, rfl⟩ := hv
    have := pathGo_state_nonneg (ra - ca) mi ms (grossQ tax) hmi r 0 ch p0 hch hp0
      (hpos r hr) x hx
    exact mul_nonneg this.1 this.2.le
  · intro s hs v hv
    simp only [simulate_percentiles_and_prob, List.mem_map] at hs
    obtain ⟨p, _, rfl⟩ := hs
    rw [List.mem_map] at hv
    obtain ⟨t, _, rfl⟩ := hv
    refine npPercentile_nonneg _ _ ?_
    intro x hx
    simp only [colD, List.map_map, List.mem_map, Function.comp_def] at hx
    obtain ⟨r, hr, rfl⟩ := hx
    refine getD_nonneg _ _ _ ?_ le_rfl
    exact streamGo_values_nonneg (ra - ca) mi ms (grossQ tax) hmi r 0 ch p0 true hch hp0
      (hpos r hr)
  · simp only [simulate_holdings_paths]
    by_cases hg : 0 < rf.length ∧ ra - ca < ((rf.headD []).length : ℤ)
    · rw [if_pos hg]
      have hle : countTrue ((rf.map
          (pathGo (ra - ca) mi ms (grossQ tax) 0 ch p0)).map (notRunOut (ra - ca) 0)) ≤
          rf.length := by
        calc countTrue _ ≤ _ := countTrue_le_length _
        _ = rf.length := by simp
      exact natDiv_unit hle
    · rw [if_neg hg]
      norm_num
  · simp only [simulate_percentiles_and_prob]
    by_cases hg : ra - ca < ((rf.headD []).length : ℤ)
    · rw [if_pos hg]
      have hle : countTrue ((rf.map (streamGo (ra - ca) mi ms (grossQ tax) 0 ch p0
          true)).map Prod.snd) ≤ rf.length := by
        calc countTrue _ ≤ _ := countTrue_le_length _
        _ = rf.length := by simp
      exact natDiv_unit hle
    · rw [if_neg hg]
      norm_num

/-- Claim C3 witness: the amended non-negativity guarantee evaluated at the
concrete scenario `[[2, 2]]`, holdings `1`, investment `1`, spending `1`,
tax `10`, price `1`. -/
theorem reported_outputs_nonneg_witness :
    ((0 : ℚ) ≤ 1 ∧ (0 : ℚ) < 1 ∧ (∀ row ∈ [[(2 : ℚ), 2]], ∀ f ∈ row, 0 < f)) ∧
    (∀ row ∈ (simulate_holdings_paths [[2, 2]] 30 31 1 1 1 10 1).1, ∀ v ∈ row, 0 ≤ v) ∧
    (∀ s ∈ (simulate_percentiles_and_prob [[2, 2]] 30 31 1 1 1 1 10 [50]).1, ∀ v ∈ s, 0 ≤ v) ∧
    (0 ≤ (simulate_holdings_paths [[2, 2]] 30 31 1 1 1 10 1).2 ∧
      (simulate_holdings_paths [[2, 2]] 30 31 1 1 1 10 1).2 ≤ 1) ∧
    (0 ≤ (simulate_percentiles_and_prob [[2, 2]] 30 31 1 1 1 1 10 [50]).2 ∧
      (simulate_percentiles_and_prob [[2, 2]] 30 31 1 1 1 1 10 [50]).2 ≤ 1) :=
  ⟨⟨by norm_num, by norm_num, by decide⟩,
    (reported_outputs_nonneg [[2, 2]] 30 31 1 1 1 10 1 (by norm_num) (by norm_num)
      (by norm_num) (by decide) [50]).1,
    (reported_outputs_nonneg [[2, 2]] 30 31 1 1 1 10 1 (by norm_num) (by norm_num)
      (by norm_num) (by decide) [50]).2.1,
    (reported_outputs_nonneg [[2, 2]] 30 31 1 1 1 10 1 (by norm_num) (by norm_num)
      (by norm_num) (by decide) [50]).2.2.1,
    (reported_outputs_nonneg [[2, 2]] 30 31 1 1 1 10 1 (by norm_num) (by norm_num)
      (by norm_num) (by decide) [50]).2.2.2⟩

/-- Claim C4 helper: the clamped gross-up factor is strictly positive for every
tax rate, including rates at or above 100%. -/
theorem grossQ_pos (tax : ℚ) : 0 < grossQ tax := by
  unfold grossQ
  have : (0 : ℚ) < max epsClamp (1 - tax / 100) :=
    lt_of_lt_of_le (by norm_num [epsClamp]) (le_max_left _ _)
  positivity

/-- Claim C4 helper: the gross-up factor is monotone non-decreasing in the tax
rate. -/
theorem grossQ_mono {t1 t2 : ℚ} (h : t1 ≤ t2) : grossQ t1 ≤ grossQ t2 := by
  unfold grossQ
  have hden : max epsClamp (1 - t2 / 100) ≤ max epsClamp (1 - t1 / 100) :=
    max_le_max le_rfl (by linarith)
  have hpos : (0 : ℚ) < max epsClamp (1 - t2 / 100) :=
    lt_of_lt_of_le (by norm_num [epsClamp]) (le_max_left _ _)
  exact one_div_le_one_div_of_le hpos hden

/-- Helper: division of natural casts by a common natural denominator is
monotone (trivially, when the denominator is zero). -/
theorem natCast_div_le_div {c d n : ℕ} (h : c ≤ d) : (c : ℚ) / (n : ℚ) ≤ (d : ℚ) / (n : ℚ) := by
  rcases Nat.eq_zero_or_pos n with hn | hn
  · subst hn; norm_num
  · have hn' : (0 : ℚ) < (n : ℚ) := by exact_mod_cast hn
    exact (div_le_div_iff_of_pos_right hn').mpr (by exact_mod_cast h)

/-- Helper: `countTrue` is monotone under a pointwise boolean implication. -/
theorem countTrue_map_mono {α : Type} (l : List α) (f g : α → Bool)
    (h : ∀ x ∈ l, f x = true → g x = true) :
    countTrue (l.map f) ≤ countTrue (l.map g) := by
  induction l with
  | nil => simp
  | cons x xs ih =>
    have hx := h x (List.mem_cons_self x xs)
    have ihx := ih fun y hy => h y (List.mem_cons_of_mem x hy)
    simp only [List.map_cons, countTrue]
    cases hf : f x
    · cases g x <;> simp <;> omega
    · rw [hx hf]
      omega

/-- Claim C4 helper: a streaming path that survives under the larger gross-up
factor also survives under the smaller one (holdings dominate pointwise). -/
theorem streamGo_alive_tax_mono (yur : ℤ) (mi ms : ℚ) (hms : 0 ≤ ms) (g1 g2 : ℚ)
    (hg : g1 ≤ g2) (fs : List ℚ) :
    ∀ (t : ℕ) (h1 h2 price : ℚ) (a1 a2 : Bool), h2 ≤ h1 → 0 < price →
      (∀ f ∈ fs, 0 < f) → (a2 = true → a1 = true) →
      ((streamGo yur mi ms g2 t h2 price a2 fs).2 = true →
        (streamGo yur mi ms g1 t h1 price a1 fs).2 = true) := by
  induction fs with
  | nil => intro t h1 h2 price a1 a2 _ _ _ ha; simpa [streamGo] using ha
  | cons f fs ih =>
    intro t h1 h2 price a1 a2 hh hp hfs ha
    have hf : 0 < f := hfs f (List.mem_cons_self f fs)
    have hrest : ∀ g ∈ fs, 0 < g := fun g hg' => hfs g (List.mem_cons_of_mem f hg')
    by_cases hc : (t : ℤ) < yur
    · simp only [streamGo, if_pos hc]
      exact ih (t + 1) _ _ _ a1 a2 (by linarith) (mul_pos hp hf) hrest ha
    · have hspend : ms * 12 * g1 / price ≤ ms * 12 * g2 / price :=
        (div_le_div_iff_of_pos_right hp).mpr (mul_le_mul_of_nonneg_left hg (by positivity))
      have hh' : max (h2 - ms * 12 * g2 / price) 0 ≤ max (h1 - ms * 12 * g1 / price) 0 :=
        max_le_max (by linarith) le_rfl
      simp only [streamGo, if_neg hc]
      refine ih (t + 1) _ _ _ _ _ hh' (mul_pos hp hf) hrest ?_
      intro h2a
      rw [Bool.and_eq_true] at h2a ⊢
      obtain ⟨ha2, hh2⟩ := h2a
      have hh2' : (0 : ℚ) < max (h2 - ms * 12 * g2 / price) 0 := of_decide_eq_true hh2
      exact ⟨ha ha2, decide_eq_true (lt_of_lt_of_le hh2' hh')⟩

/-- Claim C4 helper: full-matrix analogue of `streamGo_alive_tax_mono`. -/
theorem notRunOut_pathGo_tax_mono (yur : ℤ) (mi ms : ℚ) (hms : 0 ≤ ms) (g1 g2 : ℚ)
    (hg : g1 ≤ g2) (fs : List ℚ) :
    ∀ (t : ℕ) (h1 h2 price : ℚ), h2 ≤ h1 → 0 < price → (∀ f ∈ fs, 0 < f) →
      (notRunOut yur t (pathGo yur mi ms g2 t h2 price fs) = true →
        notRunOut yur t (pathGo yur mi ms g1 t h1 price fs) = true) := by
  induction fs with
  | nil => intro t h1 h2 price _ _ _ _; simp [pathGo, notRunOut]
  | cons f fs ih =>
    intro t h1 h2 price hh hp hfs ha
    have hf : 0 < f := hfs f (List.mem_cons_self f fs)
    have hrest : ∀ g ∈ fs, 0 < g := fun g hg' => hfs g (List.mem_cons_of_mem f hg')
    have hp' : 0 < price * f := mul_pos hp hf
    by_cases hc : (t : ℤ) < yur
    · simp only [pathGo, notRunOut, if_pos hc, Bool.true_and] at ha ⊢
      exact ih (t + 1) _ _ _ (by linarith) hp' hrest ha
    · have hspend : ms * 12 * g1 / (price * f) ≤ ms * 12 * g2 / (price * f) :=
        (div_le_div_iff_of_pos_right hp').mpr (mul_le_mul_of_nonneg_left hg (by positivity))
      have hh' : max (h2 - ms * 12 * g2 / (price * f)) 0 ≤
          max (h1 - ms * 12 * g1 / (price * f)) 0 :=
        max_le_max (by linarith) le_rfl
      simp only [pathGo, notRunOut, if_neg hc] at ha ⊢
      rw [Bool.and_eq_true] at ha ⊢
      obtain ⟨hhead, htail⟩ := ha
      refine ⟨?_, ih (t + 1) _ _ _ hh' hp' hrest htail⟩
      have h2pos : (0 : ℚ) < max (h2 - ms * 12 * g2 / (price * f)) 0 :=
        of_decide_eq_true hhead
      exact decide_eq_true (lt_of_lt_of_le h2pos hh')

/-- Claim C4: the gross-up factor `1/max(1e-6, 1 - tax/100)` is always positive
(and, over `ℚ`, finite), and with the return-factor matrix and all other
scenario parameters held fixed the success probability of both simulators is
monotone non-increasing in the tax rate, for any `tax1 ≤ tax2`, including rates
at or above 100%. -/
theorem success_prob_antitone_in_tax (rf : List (List ℚ)) (ca ra : ℤ) (ch mi ms p0 : ℚ)
    (hms : 0 ≤ ms) (hp0 : 0 < p0) (hpos : ∀ row ∈ rf, ∀ f ∈ row, 0 < f)
    (t1 t2 : ℚ) (ht : t1 ≤ t2) (pcts : List ℚ) :
    (∀ tax : ℚ, 0 < grossQ tax) ∧
    (simulate_percentiles_and_prob rf ca ra ch mi ms p0 t2 pcts).2 ≤
      (simulate_percentiles_and_prob rf ca ra ch mi ms p0 t1 pcts).2 ∧
    (simulate_holdings_paths rf ca ra ch mi ms t2 p0).2 ≤
      (simulate_holdings_paths rf ca ra ch mi ms t1 p0).2 := by
  refine ⟨grossQ_pos, ?_, ?_⟩
  · simp only [simulate_percentiles_and_prob, List.map_map]
    by_cases hg : ra - ca < ((rf.headD []).length : ℤ)
    · rw [if_pos hg, if_pos hg]
      refine natCast_div_le_div (countTrue_map_mono rf _ _ ?_)
      intro row hrow
      exact streamGo_alive_tax_mono (ra - ca) mi ms hms (grossQ t1) (grossQ t2)
        (grossQ_mono ht) row 0 ch ch p0 true true le_rfl hp0 (hpos row hrow) (fun h => h)
    · rw [if_neg hg, if_neg hg]
  · simp only [simulate_holdings_paths, List.map_map]
    by_cases hg : 0 < rf.length ∧ ra - ca < ((rf.headD []).length : ℤ)
    · rw [if_pos hg, if_pos hg]
      refine natCast_div_le_div (countTrue_map_mono rf _ _ ?_)
      intro row hrow
      exact notRunOut_pathGo_tax_mono (ra - ca) mi ms hms (grossQ t1) (grossQ t2)
        (grossQ_mono ht) row 0 ch ch p0 le_rfl hp0 (hpos row hrow)
    · rw [if_neg hg, if_neg hg]

/-- Claim C4 witness: monotonicity evaluated at tax rates `10 ≤ 120` on a
concrete scenario. -/
theorem success_prob_antitone_in_tax_witness :
    ((0 : ℚ) ≤ 100 ∧ (0 : ℚ) < 100 ∧ (∀ row ∈ [[(1 : ℚ), 1]], ∀ f ∈ row, 0 < f) ∧
      (10 : ℚ) ≤ 120) ∧
    (∀ tax : ℚ, 0 < grossQ tax) ∧
    (simulate_percentiles_and_prob [[1, 1]] 30 31 1 0 100 100 120 [50]).2 ≤
      (simulate_percentiles_and_prob [[1, 1]] 30 31 1 0 100 100 10 [50]).2 ∧
    (simulate_holdings_paths [[1, 1]] 30 31 1 0 100 120 100).2 ≤
      (simulate_holdings_paths [[1, 1]] 30 31 1 0 100 10 100).2 :=
  ⟨⟨by norm_num, by norm_num, by decide, by norm_num⟩,
    success_prob_antitone_in_tax [[1, 1]] 30 31 1 0 100 100 (by norm_num) (by norm_num)
      (by decide) 10 120 (by norm_num) [50]⟩

/-- Claim C5 (amended): every entry of a `generate_halving_returns` matrix is
strictly positive, for any years, simulation count, draw values (hence any
seed), target growth rate and anchor offset, because each factor is an
exponential.  (The other generator named by the claim is refuted by
`regime_shift_nonpositive_entry`.) -/
theorem generate_halving_returns_pos (years n_sims : ℕ) (draws : ℕ → ℕ → ℝ)
    (g_pct : ℝ) (msa : ℤ) :
    ∀ row ∈ generate_halving_returns years n_sims draws g_pct msa, ∀ x ∈ row, 0 < x := by
  intro row hrow x hx
  simp only [generate_halving_returns, List.mem_map] at hrow
  obtain ⟨i, _, rfl⟩ := hrow
  simp only [List.mem_map] at hx
  obtain ⟨y, _, rfl⟩ := hx
  exact Real.exp_pos _

/-- Claim C5 witness: positivity applied to the concrete 1x1 matrix with a zero
draw. -/
theorem generate_halving_returns_pos_witness :
    0 < ((generate_halving_returns 1 1 (fun _ _ => 0) 10 0).headD []).headD 1 := by
  have h := generate_halving_returns_pos 1 1 (fun _ _ => 0) 10 0
    [halvingFactor 10 0 0 0] (by simp [generate_halving_returns, List.range_succ])
    (halvingFactor 10 0 0 0) (List.mem_cons_self _ _)
  simpa [generate_halving_returns, List.range_succ] using h

/-- Claim C5 counterexample: `simulate_regime_shift_returns` has no positivity
floor; a bear-regime standard-normal draw of `-4` (uniform draw `1`, no target
shift) yields the factor `1 + (-0.1 + 0.25 * (-4)) = -1/10 < 0`, so not every
entry of that generator is strictly positive. -/
theorem regime_shift_nonpositive_entry :
    simulate_regime_shift_returns 1 1 (fun _ _ => 1) (fun _ _ => 0) (fun _ _ => -4) none =
      [[-(1 / 10)]] ∧ ¬ (0 : ℚ) < -(1 / 10) := by
  constructor
  · norm_num [simulate_regime_shift_returns, regimeReturn, List.range_succ]
  · norm_num

/-- Claim C6 counterexample: the year-0 drift is not `mu0`.  At anchor offset
`msa = 0` (year 0 falls in phase 0) and target 10%, the schedule's first entry
is `mu0 + tilt0` with `tilt0 = log(9/5) - (log(9/5)+log(27/20)+log(4/5)+log(28/25))/4 > 0`,
so it differs from `ln(1 + 10/100)`. -/
theorem mu_log_year0_ne_mu0 :
    (compute_mu_log_schedule 1 10 0).1.headD 0 ≠ Real.log (1 + 10 / 100) := by
  have hsched : (compute_mu_log_schedule 1 10 0).1.headD 0 = mu_log_year 10 0 0 := by
    simp [compute_mu_log_schedule, List.range_succ]
  have hphase : phaseIdx 0 0 = 0 := rfl
  have hmu : mu_log_year 10 0 0 = mu0 10 + phase_mu_log_tilt 0 := by
    rw [mu_log_year, hphase]
    norm_num
  have hr0 : phase_mu_log_raw 0 = Real.log (9 / 5) := by
    rw [phase_mu_log_raw]
    norm_num [HALVING_PHASE_PARAMS]
  have hr1 : phase_mu_log_raw 1 = Real.log (27 / 20) := by
    rw [phase_mu_log_raw]
    norm_num [HALVING_PHASE_PARAMS]
  have hr2 : phase_mu_log_raw 2 = Real.log (4 / 5) := by
    rw [phase_mu_log_raw]
    norm_num [HALVING_PHASE_PARAMS]
  have hr3 : phase_mu_log_raw 3 = Real.log (28 / 25) := by
    rw [phase_mu_log_raw]
    norm_num [HALVING_PHASE_PARAMS]
  have h3 : Real.log ((9 / 5 : ℝ) ^ 3) = 3 * Real.log (9 / 5) := by
    rw [Real.log_pow]
    push_cast
    ring
  have hprod : Real.log ((27 / 20 : ℝ) * (4 / 5) * (28 / 25)) =
      Real.log ((27 : ℝ) / 20) + Real.log ((4 : ℝ) / 5) + Real.log ((28 : ℝ) / 25) := by
    rw [Real.log_mul (by norm_num) (by norm_num), Real.log_mul (by norm_num) (by norm_num)]
  have hlt : Real.log ((27 / 20 : ℝ) * (4 / 5) * (28 / 25)) < Real.log ((9 / 5 : ℝ) ^ 3) :=
    Real.log_lt_log (by norm_num) (by norm_num)
  have htilt : 0 < phase_mu_log_tilt 0 := by
    rw [phase_mu_log_tilt, hr0, hr1, hr2, hr3]
    rw [h3, hprod] at hlt
    linarith
  have hmu0 : mu0 10 = Real.log (1 + 10 / 100) := rfl
  rw [hsched, hmu, hmu0]
  intro heq
  have : phase_mu_log_tilt 0 = 0 := by linarith
  exact htilt.ne' this

/-- Claim C6 (amended): the four phase tilts are zero-centered (they sum to
zero), and the year-0 entry of the drift schedule equals `mu0` plus the tilt of
year 0's phase — not `mu0` itself, since no individual tilt is zero (see
`mu_log_year0_ne_mu0`). -/
theorem mu_log_schedule_year0 :
    (phase_mu_log_tilt 0 + phase_mu_log_tilt 1 + phase_mu_log_tilt 2 +
      phase_mu_log_tilt 3 = 0) ∧
    ∀ (years : ℕ) (g : ℝ) (msa : ℤ),
      (compute_mu_log_schedule (years + 1) g msa).1.headD 0 =
        mu0 g + phase_mu_log_tilt (phaseIdx msa 0) := by
  constructor
  · simp only [phase_mu_log_tilt]
    ring
  · intro years g msa
    have : (compute_mu_log_schedule (years + 1) g msa).1.headD 0 = mu_log_year g msa 0 := by
      simp [compute_mu_log_schedule, List.range_succ_eq_map]
    rw [this, mu_log_year]
    norm_num
/-- Helper for claim C7: one-step unfolding of the expansion loop with fuel
remaining. -/
theorem bbExpand_succ (getter : ℚ → ℚ) (target cap gran : ℚ) (fuel : ℕ) (u p : ℚ) :
    bbExpand getter target cap gran (fuel + 1) u p =
      if p < target ∧ u < cap then
        bbExpand getter target cap gran fuel
          (min (if 0 < u then u * 2 else gran * 2) cap)
          (getter (min (if 0 < u then u * 2 else gran * 2) cap))
      else (u, p) := rfl

/-- Helper for claim C7: the expansion loop returns its state unchanged as soon
as its `while` guard fails, whatever fuel remains. -/
theorem bbExpand_stop {getter : ℚ → ℚ} {target cap gran u p : ℚ} (fuel : ℕ)
    (h : ¬(p < target ∧ u < cap)) :
    bbExpand getter target cap gran fuel u p = (u, p) := by
  cases fuel with
  | zero => rfl
  | succ fuel => rw [bbExpand_succ, if_neg h]

/-- Claim C7 counterexample: with `upper_init = 5` above `upper_cap = 3` and the
constant evaluator `0` (strictly below the target `1/2` everywhere, hence on
all of `[0, 3]`), the expansion loop never runs and the routine returns
`(false, 5, 0)`: the returned lever value is the initial step, not `upper_cap`. -/
theorem bracket_and_bisect_cap_overshoot :
    bracket_and_bisect 10 (fun _ => 0) 0 5 3 1 (1 / 2) = (false, 5, 0) ∧
    (5 : ℚ) ≠ 3 := by
  refine ⟨?_, by norm_num⟩
  have hmax : max (5 : ℚ) (0 + 1) = 5 := by norm_num
  simp only [bracket_and_bisect, hmax]
  rw [if_neg (by norm_num), bbExpand_stop 10 (by norm_num), if_pos (by norm_num)]

/-- Helper for claim C7: under an evaluator strictly below target on
`[lower, cap]`, the expansion loop started at a positive probe within bounds,
with enough fuel, terminates exactly at the cap. -/
theorem bbExpand_below_target (getter : ℚ → ℚ) (target cap gran lower : ℚ)
    (hbelow : ∀ x, lower ≤ x → x ≤ cap → getter x < target) :
    ∀ (fuel : ℕ) (u : ℚ), 0 < u → lower ≤ u → u ≤ cap → cap ≤ u * 2 ^ fuel →
      bbExpand getter target cap gran fuel u (getter u) = (cap, getter cap) := by
  intro fuel
  induction fuel with
  | zero =>
    intro u hu hlu huc hcap
    have heq : u = cap := le_antisymm huc (by simpa using hcap)
    subst heq
    exact bbExpand_stop 0 fun hc => lt_irrefl _ hc.2
  | succ fuel ih =>
    intro u hu hlu huc hcap
    rcases eq_or_lt_of_le huc with heq | hlt
    · subst heq
      exact bbExpand_stop (fuel + 1) fun hc => lt_irrefl _ hc.2
    · rw [bbExpand_succ, if_pos ⟨hbelow u hlu huc, hlt⟩, if_pos hu]
      have hcap0 : 0 < cap := hu.trans hlt
      have hu2 : 0 < min (u * 2) cap := lt_min (by linarith) hcap0
      have hlu2 : lower ≤ min (u * 2) cap := le_min (by linarith) (by linarith)
      have huc2 : min (u * 2) cap ≤ cap := min_le_right _ _
      have h2pow : (1 : ℚ) ≤ 2 ^ fuel := one_le_pow₀ (by norm_num)
      have hcap2 : cap ≤ min (u * 2) cap * 2 ^ fuel := by
        rcases min_cases (u * 2) cap with ⟨hm, _⟩ | ⟨hm, _⟩
        · rw [hm]
          have h21 : u * 2 * 2 ^ fuel = u * 2 ^ (fuel + 1) := by ring
          rw [h21]
          exact hcap
        · rw [hm]
          exact le_mul_of_one_le_right hcap0.le h2pow
      exact ih (min (u * 2) cap) hu2 hlu2 huc2 hcap2
/-- Claim C7 (amended): if additionally the initial step and `lower +
granularity` do not exceed the cap, `lower` is non-negative, the granularity is
positive, and the fuel covers the doubling distance (the Python loop is
unbounded), then an evaluator strictly below target on the whole admissible
range `[lower, upper_cap]` makes `bracket_and_bisect` return
`(found = false, upper_cap, evaluate(upper_cap))`, the last evaluation
performed.  (Without `upper_init ≤ upper_cap` the routine can return a lever
value above the cap: `bracket_and_bisect_cap_overshoot`.) -/
theorem bracket_and_bisect_below_target (fuel : ℕ) (getter : ℚ → ℚ)
    (lower upper_init upper_cap granularity target : ℚ)
    (hl : 0 ≤ lower) (hg : 0 < granularity) (hui : upper_init ≤ upper_cap)
    (hlg : lower + granularity ≤ upper_cap)
    (hfuel : upper_cap ≤ (lower + granularity) * 2 ^ fuel)
    (hbelow : ∀ x, lower ≤ x → x ≤ upper_cap → getter x < target) :
    bracket_and_bisect fuel getter lower upper_init upper_cap granularity target =
      (false, upper_cap, getter upper_cap) := by
  have hu0pos : 0 < max upper_init (lower + granularity) :=
    lt_of_lt_of_le (by linarith) (le_max_right _ _)
  have hu0lo : lower ≤ max upper_init (lower + granularity) :=
    le_trans (by linarith) (le_max_right _ _)
  have hu0cap : max upper_init (lower + granularity) ≤ upper_cap := max_le hui hlg
  have hu0fuel : upper_cap ≤ max upper_init (lower + granularity) * 2 ^ fuel := by
    have h1 : (lower + granularity) * 2 ^ fuel ≤
        max upper_init (lower + granularity) * 2 ^ fuel :=
      mul_le_mul_of_nonneg_right (le_max_right _ _) (by positivity)
    linarith
  have hexp := bbExpand_below_target getter target upper_cap granularity lower hbelow fuel
    (max upper_init (lower + granularity)) hu0pos hu0lo hu0cap hu0fuel
  simp only [bracket_and_bisect]
  rw [if_neg (not_le.mpr (hbelow lower le_rfl (by linarith))), hexp,
    if_pos (by simpa using hbelow upper_cap (by linarith) le_rfl)]

/-- Claim C7 witness: the amended cap-failure behavior at the concrete instance
`fuel = 10`, constant evaluator `0`, `lower = 0`, `upper_init = 1`,
`upper_cap = 4`, `granularity = 1`, `target = 1/2`. -/
theorem bracket_and_bisect_below_target_witness :
    ((0 : ℚ) ≤ 0 ∧ (0 : ℚ) < 1 ∧ (1 : ℚ) ≤ 4 ∧ (0 : ℚ) + 1 ≤ 4 ∧
      (4 : ℚ) ≤ (0 + 1) * 2 ^ 10) ∧
    bracket_and_bisect 10 (fun _ => 0) 0 1 4 1 (1 / 2) = (false, 4, 0) :=
  ⟨⟨le_rfl, by norm_num, by norm_num, by norm_num, by norm_num⟩,
    bracket_and_bisect_below_target 10 (fun _ => 0) 0 1 4 1 (1 / 2) le_rfl (by norm_num)
      (by norm_num) (by norm_num) (by norm_num) (fun x _ _ => by norm_num)⟩
/-- Helper for claim C8: appending to a non-empty string stays non-empty. -/
theorem append_ne_empty_left {s : String} (h : s ≠ "") (t : String) : s ++ t ≠ "" := by
  intro hc
  apply h
  have hd := congrArg String.data hc
  rw [String.data_append] at hd
  have hnil : s.data = [] := (List.append_eq_nil.mp hd).1
  cases s
  simp_all
set_option maxHeartbeats 2000000 in
/-- Helper for claim C8: every string the recommendation body returns through
`Except.ok` is non-empty — each return branch starts with a non-empty literal. -/
theorem _recommend_body_ok_ne_empty (gen : ℕ → ℕ → ℕ → ℚ → List (List ℚ))
    (entropy : ℕ → ℚ) (inputs : Inputs) (price bp : ℚ) (ns : ℕ) (tgt : ℚ) :
    ∀ s, _recommend_body gen entropy inputs price bp ns tgt = Except.ok s → s ≠ "" := by
  intro s h
  simp only [_recommend_body] at h
  iterate 12
    all_goals try split at h
    all_goals try simp only [List.cons_append, List.nil_append, List.append_nil,
      sortByKey, insertByKey, List.take] at h
  all_goals
    first
      | (injection h with hh
         subst hh
         (repeat apply append_ne_empty_left)
         decide)
      | simp at h
/-- Claim C8: the recommendation routine is total (never propagates an
exception): for every generator, entropy source, input record, price, baseline
probability, simulation count and target, `_recommend_adjustments` either hits
the exception path of its body and returns the empty string, or returns the
body's string, which is always non-empty. -/
theorem _recommend_adjustments_total (gen : ℕ → ℕ → ℕ → ℚ → List (List ℚ))
    (entropy : ℕ → ℚ) (inputs : Inputs) (price bp : ℚ) (ns : ℕ) (tgt : ℚ) :
    (_recommend_adjustments gen entropy inputs price bp ns tgt = "" ∧
      _recommend_body gen entropy inputs price bp ns tgt = Except.error ()) ∨
    (_recommend_adjustments gen entropy inputs price bp ns tgt ≠ "" ∧
      _recommend_body gen entropy inputs price bp ns tgt =
        Except.ok (_recommend_adjustments gen entropy inputs price bp ns tgt)) := by
  cases hb : _recommend_body gen entropy inputs price bp ns tgt with
  | error e =>
    left
    cases e
    exact ⟨by simp [_recommend_adjustments, hb], rfl⟩
  | ok s =>
    right
    have hs := _recommend_body_ok_ne_empty gen entropy inputs price bp ns tgt s hb
    have hr : _recommend_adjustments gen entropy inputs price bp ns tgt = s := by
      simp [_recommend_adjustments, hb]
    rw [hr]
    exact ⟨hs, rfl⟩
/-- Claim C9: every probability evaluation of the optimizer uses a clamped
scenario: for every delta triple, the retirement age passed to
`simulate_percentiles_and_prob` is at most `life_expectancy - 1`, the monthly
investment is at least `0`, the monthly spending is at least
`SPENDING_MIN = 1`, and `eval_prob` is exactly the simulator applied to that
clamped scenario. -/
theorem eval_prob_clamps (inputs : Inputs) (di : ℚ) (dy : ℤ) (ds : ℚ) :
    (evalProbScenario inputs di dy ds).1 ≤ inputs.life_expectancy - 1 ∧
    0 ≤ (evalProbScenario inputs di dy ds).2.1 ∧
    SPENDING_MIN ≤ (evalProbScenario inputs di dy ds).2.2 ∧
    ∀ (rf : List (List ℚ)) (price : ℚ),
      eval_prob rf inputs price di dy ds =
        (simulate_percentiles_and_prob rf inputs.current_age
          (evalProbScenario inputs di dy ds).1 inputs.current_holdings
          (evalProbScenario inputs di dy ds).2.1 (evalProbScenario inputs di dy ds).2.2
          price inputs.tax_rate [10, 25, 50]).2 :=
  ⟨min_le_right _ _, le_max_left _ _, le_max_left _ _, fun _ _ => rfl⟩

/-- Claim C10: the recommendation routine is deterministic: its output does not
depend on the process-global unseeded random source (every random matrix in a
recommendation session comes from the seeded generator at the fixed
`OPT_SEED`), so two invocations with equal arguments — under any two entropy
states — return the identical string. -/
theorem _recommend_adjustments_deterministic (gen : ℕ → ℕ → ℕ → ℚ → List (List ℚ))
    (e1 e2 : ℕ → ℚ) (inputs : Inputs) (price bp : ℚ) (ns : ℕ) (tgt : ℚ) :
    _recommend_adjustments gen e1 inputs price bp ns tgt =
      _recommend_adjustments gen e2 inputs price bp ns tgt := rfl
